import Mathlib

/-!
Verification of the StarryOS user-memory validator (`api/src/mm.rs`) and the
futex syscall front-end (`api/src/syscall/sync/futex.rs`).

The Rust code is shallowly embedded: addresses, sizes, alignments and 32-bit
values are `Nat` (with explicit `% 2 ^ 32` where a Rust cast truncates);
fallible operations return an explicit result type mirroring `AxResult`;
the process address space ("oracle") is a record of the two operations the
code calls on it (`can_access_range`, `populate_area`); the outcome of a
thread suspension inside the wait queue is an input parameter, since the
queue internals live outside the validated sources and the claims under
study only concern the code around them.
-/

set_option linter.unusedVariables false

namespace StarryOS

/-- Error codes of `axerrno::AxError` used by the code under study.
`Other n` models `AxError::Other(LinuxError)` with `n` the Linux errno;
`EOWNERDEAD` is errno 130. -/
inductive AxError : Type where
  | BadAddress
  | WouldBlock
  | TimedOut
  | InvalidInput
  | Unsupported
  | IllegalBytes
  | Other (errno : Nat)
deriving DecidableEq, Repr

/-- Result type `AxResult<A>`: success with a value, or an `AxError`. -/
inductive AxResult (A : Type) : Type where
  | ok (a : A)
  | err (e : AxError)
deriving DecidableEq, Repr

/-- Access flags `axhal::paging::MappingFlags` as used here: `READ` for `UserConstPtr`
accesses and `READ | WRITE` for `UserPtr` accesses. -/
inductive MappingFlags : Type where
  | READ
  | READ_WRITE
deriving DecidableEq, Repr

/-- The 4 KiB page size `PAGE_SIZE_4K`. -/
def PAGE_SIZE_4K : Nat := 4096

/-- Model of `VirtAddr::align_down_4k`. -/
def alignDown4k (a : Nat) : Nat := a / PAGE_SIZE_4K * PAGE_SIZE_4K

/-- Model of `VirtAddr::align_up_4k`. -/
def alignUp4k (a : Nat) : Nat := (a + (PAGE_SIZE_4K - 1)) / PAGE_SIZE_4K * PAGE_SIZE_4K

/-- The process address space as seen by `check_region`: the two operations
`aspace.can_access_range(start, size, flags)` and
`aspace.populate_area(start, size, flags)` that `mm.rs` invokes on it.
It is a parameter: the theorems quantify over every possible oracle. -/
structure Aspace : Type where
  can_access_range : Nat → Nat → MappingFlags → Bool
  populate_area : Nat → Nat → MappingFlags → AxResult Unit

/-- Model of `check_region(start, layout, access_flags)` from `api/src/mm.rs`:
alignment check (`start & (align - 1) != 0`), then
`can_access_range(start, size, flags)`, then population of the covering
pages `[align_down_4k start, align_up_4k (start + size))`. -/
def check_region (o : Aspace) (start size align : Nat) (flags : MappingFlags) :
    AxResult Unit :=
  if start &&& (align - 1) ≠ 0 then .err .BadAddress
  else if ¬ o.can_access_range start size flags then .err .BadAddress
  else
    let page_start := alignDown4k start
    let page_end := alignUp4k (start + size)
    match o.populate_area page_start (page_end - page_start) flags with
    | .ok _ => .ok ()
    | .err e => .err e

/-- Value of `isize::MAX` on a 64-bit target. -/
def isizeMax : Nat := 2 ^ 63 - 1

/-- Model of `core::alloc::Layout::array::<T>(len)` for an element of `size` bytes
aligned to `align`: the array layout exists iff `len * size` fits below
`isize::MAX` reduced by the alignment rounding slack (this single `Nat`
condition also covers the `usize` multiplication overflow, which implies
it). Returns the size of the array and alignment. -/
def layoutArray (size align len : Nat) : Option (Nat × Nat) :=
  if len * size ≤ isizeMax - (align - 1) then some (len * size, align) else none

/-- Outcome of a Rust call that may panic (`.unwrap()` on a failed layout):
either a panic (kernel abort) or an ordinary returned value. -/
inductive PanicOr (A : Type) : Type where
  | panic
  | result (a : A)
deriving DecidableEq, Repr

/-- Model of `UserConstPtr::<T>::get_as_ref`: `check_region` with `Layout::new::<T>()`
and `READ` access. The returned reference is not modelled beyond success. -/
def get_as_ref (o : Aspace) (start size align : Nat) : AxResult Unit :=
  check_region o start size align .READ

/-- Model of `UserPtr::<T>::get_as_mut`: `check_region` with `Layout::new::<T>()`
and `READ | WRITE` access. -/
def get_as_mut (o : Aspace) (start size align : Nat) : AxResult Unit :=
  check_region o start size align .READ_WRITE

/-- Model of `UserConstPtr::<T>::get_as_slice(len)`:
`check_region(addr, Layout::array::<T>(len).unwrap(), READ)`; the `.unwrap()`
panics when the array layout does not exist. -/
def get_as_slice (o : Aspace) (start size align len : Nat) :
    PanicOr (AxResult Unit) :=
  match layoutArray size align len with
  | none => .panic
  | some (sz, al) => .result (check_region o start sz al .READ)

/-- Model of `UserPtr::<T>::get_as_mut_slice(len)`:
`check_region(addr, Layout::array::<T>(len).unwrap(), READ | WRITE)`. -/
def get_as_mut_slice (o : Aspace) (start size align len : Nat) :
    PanicOr (AxResult Unit) :=
  match layoutArray size align len with
  | none => .panic
  | some (sz, al) => .result (check_region o start sz al .READ_WRITE)

/-- The inner `while ptr >= page` loop of `check_null_terminated`: starting
from the page-aligned cursor `page`, validate `count` successive pages with
`can_access_range(page, PAGE_SIZE_4K, flags)` (the flags and size are fixed
for the call and folded into `acc`), advancing by one page each time; stop
with `BadAddress` at the first denied page, else return the final cursor. -/
def pageLoopGo (acc : Nat → Bool) : Nat → Nat → AxResult Nat
  | page, 0 => .ok page
  | page, count + 1 =>
    if acc page then pageLoopGo acc (page + PAGE_SIZE_4K) count
    else .err .BadAddress

/-- The inner while loop of `check_null_terminated` for element address
`ptr`: the loop body runs once per page-aligned cursor value `≤ ptr`, i.e.
exactly `ptr / 4096 + 1 - page / 4096` times for an aligned cursor (the
cursor gains one page per iteration and the loop exits as soon as it
exceeds `ptr`). -/
def pageLoop (acc : Nat → Bool) (ptr page : Nat) : AxResult Nat :=
  pageLoopGo acc page (ptr / PAGE_SIZE_4K + 1 - page / PAGE_SIZE_4K)

/-- The outer `loop` of `check_null_terminated`: at index `len` the element
address is `start + len * size` (`start.add(len)` on a `*const T`); the
page-validation while loop runs first, then the element is read
(`ptr.read_volatile()`) and compared against `T::default()` (the zero
value). `fuel` bounds the number of iterations modelled: `none` means the
loop was still running after `fuel` iterations. -/
def scanLoop (mem : Nat → Nat) (acc : Nat → Bool) (size start : Nat) :
    Nat → Nat → Nat → Option (AxResult Nat)
  | 0, _, _ => none
  | fuel + 1, page, len =>
    let ptr := start + len * size
    match pageLoop acc ptr page with
    | .err e => some (.err e)
    | .ok page1 =>
      if mem ptr = 0 then some (.ok len)
      else scanLoop mem acc size start fuel page1 (len + 1)

/-- Model of `check_null_terminated::<T>(start, access_flags)` from `api/src/mm.rs`:
alignment check against `Layout::new::<T>().align()`, then the scan starting
with the page cursor at `align_down_4k(start)` and `len = 0`. `mem addr` is
the element value stored at address `addr`; `acc page` is
`can_access_range(page, PAGE_SIZE_4K, access_flags)`. -/
def check_null_terminated (mem : Nat → Nat) (acc : Nat → Bool)
    (size align start fuel : Nat) : Option (AxResult Nat) :=
  if start &&& (align - 1) ≠ 0 then some (.err .BadAddress)
  else scanLoop mem acc size start fuel (alignDown4k start) 0

/-- Model of `UserConstPtr::<T>::get_as_null_terminated` and
`UserPtr::<T>::get_as_mut_null_terminated`: run `check_null_terminated`,
then build the slice of the `len` elements before the terminator. -/
def get_as_null_terminated (mem : Nat → Nat) (acc : Nat → Bool)
    (size align start fuel : Nat) : Option (AxResult (List Nat)) :=
  match check_null_terminated mem acc size align start fuel with
  | none => none
  | some (.err e) => some (.err e)
  | some (.ok len) => some (.ok ((List.range len).map fun i => mem (start + i * size)))

/-- A `starry_core::futex::Futex` object: its owner-death flag
(`owner_dead: AtomicBool`) and its wait queue, kept abstract as the list of
enqueued waiters. -/
structure Futex : Type where
  owner_dead : Bool
  waiters : List Nat
deriving DecidableEq, Repr

/-- A fresh futex object as created on first wait. -/
def Futex.new : Futex := { owner_dead := false, waiters := [] }

/-- The futex table of the current process: a map from futex key to the
`Futex` object, `none` when no object exists for the key. -/
def FutexTable : Type := Nat → Option Futex

/-- Store `f` at key `k`. -/
def tableInsert (tbl : FutexTable) (k : Nat) (f : Futex) : FutexTable :=
  fun q => if q = k then some f else tbl q

/-- Model of `FutexTable::get_or_insert(&key)`: return the existing object, or create
and insert a fresh one. -/
def getOrInsert (tbl : FutexTable) (k : Nat) : Futex × FutexTable :=
  match tbl k with
  | some f => (f, tbl)
  | none => (Futex.new, tableInsert tbl k Futex.new)

/-- Model of `assert_unsigned(value)` from `api/src/syscall/sync/futex.rs`: fails
with `InvalidInput` when the `u32` argument is negative as an `i32`
(i.e. `2 ^ 31 ≤ value`). -/
def assert_unsigned (value : Nat) : AxResult Nat :=
  if 2 ^ 31 ≤ value then .err .InvalidInput else .ok value

/-- The `FUTEX_WAIT | FUTEX_WAIT_BITSET` branch of `sys_futex`.
Inputs that the surrounding kernel produces are passed as parameters:
`readRes` is `uaddr.vm_read()`; `timeoutRes` is the parsed timeout
(`none` inside `ok` for a null timeout pointer); `waitRes` is the outcome
of `futex.wq.wait_if(bitset, timeout, recheck)` — `ok true` means the
waiter was woken, `ok false` that the post-enqueue recheck failed, `err`
a timeout or read fault during the wait.
Returns the syscall result, the table after the call, and whether the
wait-queue suspension path was ever entered. -/
def sysFutexWait (tbl : FutexTable) (key : Nat) (readRes : AxResult Nat)
    (value : Nat) (timeoutRes : AxResult (Option Nat)) (isBitset : Bool)
    (value3 : Nat) (waitRes : AxResult Bool) :
    AxResult Nat × FutexTable × Bool :=
  match readRes with
  | .err e => (.err e, tbl, false)
  | .ok cur =>
    -- Fast path: `if uaddr.vm_read()? != value { return Err(WouldBlock) }`
    if cur ≠ value then (.err .WouldBlock, tbl, false)
    else
      match timeoutRes with
      | .err e => (.err e, tbl, false)
      | .ok _ =>
        let fp := getOrInsert tbl key
        let futex := fp.1
        let tbl1 := fp.2
        let bitset := if isBitset then value3 else 4294967295
        match waitRes with
        | .err e => (.err e, tbl1, true)
        | .ok false => (.err .WouldBlock, tbl1, true)
        | .ok true =>
          -- `futex.owner_dead.swap(false, SeqCst)`
          let tbl2 := tableInsert tbl1 key { futex with owner_dead := false }
          if futex.owner_dead then (.err (.Other 130), tbl2, true)
          else (.ok 0, tbl2, true)

/-- The `FUTEX_WAKE | FUTEX_WAKE_BITSET` branch of `sys_futex`: look up the
key (without inserting), wake up to `value` waiters (note: `value` is used
as-is, with no sign validation), and return the count woken (0 when no
futex exists for the key). `wake f n mask` abstracts `f.wq.wake(n, mask)`,
returning the count woken and the queue afterwards. -/
def sysFutexWake (tbl : FutexTable) (key : Nat) (value : Nat)
    (isBitset : Bool) (value3 : Nat)
    (wake : Futex → Nat → Nat → Nat × Futex) : AxResult Nat × FutexTable :=
  match tbl key with
  | none => (.ok 0, tbl)
  | some futex =>
    let bitset := if isBitset then value3 else 4294967295
    let cf := wake futex value bitset
    (.ok cf.1, tableInsert tbl key cf.2)

/-- The `FUTEX_REQUEUE | FUTEX_CMP_REQUEUE` branch of `sys_futex`, in the
order of the source: `assert_unsigned(value)`; for `FUTEX_CMP_REQUEUE` only,
read `uaddr` and fail with `WouldBlock` on mismatch with `value3`;
`assert_unsigned(timeout.addr() as u32)` giving `value2`; then look up the
source futex, get-or-insert the target, wake up to `value` waiters on the
source and, if exactly `value` were woken, requeue up to `value2` of the
rest onto the target. `wake` and `requeue` abstract the wait-queue
operations (`requeue f n t` returns the moved count and both queues). -/
def sysFutexRequeue (tbl : FutexTable) (key key2 : Nat) (isCmp : Bool)
    (value : Nat) (readRes : AxResult Nat) (value3 : Nat)
    (timeoutAddr : Nat)
    (wake : Futex → Nat → Nat → Nat × Futex)
    (requeue : Futex → Nat → Futex → Nat × Futex × Futex) :
    AxResult Nat × FutexTable :=
  match assert_unsigned value with
  | .err e => (.err e, tbl)
  | .ok _ =>
    let cmpFail : Option AxError :=
      if isCmp then
        match readRes with
        | .err e => some e
        | .ok cur => if cur ≠ value3 then some .WouldBlock else none
      else none
    match cmpFail with
    | some e => (.err e, tbl)
    | none =>
      match assert_unsigned (timeoutAddr % 2 ^ 32) with
      | .err e => (.err e, tbl)
      | .ok value2 =>
        let futexOpt := tbl key
        let fp := getOrInsert tbl key2
        let futex2 := fp.1
        let tbl1 := fp.2
        match futexOpt with
        | none => (.ok 0, tbl1)
        | some futex =>
          let cf := wake futex value 4294967295
          let count := cf.1
          if count = value then
            let m := requeue cf.2 value2 futex2
            (.ok (count + m.1),
             tableInsert (tableInsert tbl1 key m.2.1) key2 m.2.2)
          else (.ok count, tableInsert tbl1 key cf.2)

/-- The thread context reachable from the trap handler: resolving a fault
delegates to `aspace.handle_page_fault(vaddr, access_flags)`. -/
structure ThreadCtx : Type where
  resolveFault : Nat → MappingFlags → Bool

/-- Model of `handle_page_fault` from `api/src/mm.rs`: unhandled (`false`) when the
current task is not inside a user-memory access span
(`is_accessing_user_memory()` is false) or has no associated thread
(`try_as_thread()` is `None`); otherwise delegate to the fault resolution of the
address space and return its boolean result. -/
def handle_page_fault (accessingUserMemory : Bool) (thr : Option ThreadCtx)
    (vaddr : Nat) (access_flags : MappingFlags) : Bool :=
  if ¬ accessingUserMemory then false
  else
    match thr with
    | none => false
    | some t => t.resolveFault vaddr access_flags

/-- The process address space that grants every access and populates every
range successfully; used to instantiate theorems at concrete inputs. -/
def aspaceAll : Aspace :=
  { can_access_range := fun _ _ _ => true
    populate_area := fun _ _ _ => .ok () }

/-- The empty futex table. -/
def emptyTable : FutexTable := fun _ => none

/-- First page-aligned address strictly above `a`. -/
def nextPage (a : Nat) : Nat := a / PAGE_SIZE_4K * PAGE_SIZE_4K + PAGE_SIZE_4K

/-- Claim C1: a `FUTEX_WAIT` / `FUTEX_WAIT_BITSET` call whose current value at
`uaddr` differs from the expected value returns `WouldBlock` on the fast
path: the futex table is returned unchanged (no `Futex` object is created
for the key) and the wait-queue suspension path is never entered. -/
theorem futex_wait_fast_path_wouldblock (tbl : FutexTable) (key : Nat)
    (cur value : Nat) (timeoutRes : AxResult (Option Nat)) (isBitset : Bool)
    (value3 : Nat) (waitRes : AxResult Bool) (h : cur ≠ value) :
    sysFutexWait tbl key (.ok cur) value timeoutRes isBitset value3 waitRes =
      (.err .WouldBlock, tbl, false) := by
  simp [sysFutexWait, h]

/-- Witness for `futex_wait_fast_path_wouldblock` at a concrete input. -/
theorem futex_wait_fast_path_wouldblock_w :
    sysFutexWait emptyTable 7 (.ok 1) 2 (.ok none) false 0 (.ok true) =
      (.err .WouldBlock, emptyTable, false) :=
  futex_wait_fast_path_wouldblock emptyTable 7 1 2 (.ok none) false 0
    (.ok true) (by decide)

/-- Claim C2: when the owner-death flag of the `Futex` object at `key` is set,
the next `FUTEX_WAIT` that completes successfully (the wait-queue reports a
wake, `ok true`) returns the owner-died outcome (`EOWNERDEAD`, errno 130)
and clears the flag in the table; a second successful wait on the resulting
table, with the flag not set again in between, returns 0. -/
theorem futex_owner_death_delivered_once (tbl : FutexTable) (key : Nat)
    (f : Futex) (cur cur2 : Nat) (to1 to2 : Option Nat) (b1 b2 : Bool)
    (v1 v2 : Nat) (hf : tbl key = some f) (hd : f.owner_dead = true) :
    (sysFutexWait tbl key (.ok cur) cur (.ok to1) b1 v1 (.ok true)).1 =
      .err (.Other 130) ∧
    (sysFutexWait tbl key (.ok cur) cur (.ok to1) b1 v1 (.ok true)).2.1 key =
      some { f with owner_dead := false } ∧
    (sysFutexWait
        (sysFutexWait tbl key (.ok cur) cur (.ok to1) b1 v1 (.ok true)).2.1
        key (.ok cur2) cur2 (.ok to2) b2 v2 (.ok true)).1 = .ok 0 := by
  simp [sysFutexWait, getOrInsert, hf, hd, tableInsert]

/-- Witness for `futex_owner_death_delivered_once` at a concrete input. -/
theorem futex_owner_death_delivered_once_w :
    (sysFutexWait (tableInsert emptyTable 3 { owner_dead := true, waiters := [] })
        3 (.ok 5) 5 (.ok none) false 0 (.ok true)).1 = .err (.Other 130) ∧
    (sysFutexWait (tableInsert emptyTable 3 { owner_dead := true, waiters := [] })
        3 (.ok 5) 5 (.ok none) false 0 (.ok true)).2.1 3 =
      some { owner_dead := false, waiters := [] } ∧
    (sysFutexWait
        (sysFutexWait (tableInsert emptyTable 3 { owner_dead := true, waiters := [] })
            3 (.ok 5) 5 (.ok none) false 0 (.ok true)).2.1
        3 (.ok 5) 5 (.ok none) false 0 (.ok true)).1 = .ok 0 :=
  futex_owner_death_delivered_once
    (tableInsert emptyTable 3 { owner_dead := true, waiters := [] }) 3
    { owner_dead := true, waiters := [] } 5 5 none none false false 0 0
    (by simp [tableInsert]) rfl

/-- Claim C6: the page-fault handler returns unhandled (`false`) when the
faulting context has no associated thread, and when the fault occurs
outside a user-memory access span; inside a span with a thread present it
returns exactly the fault-resolution result of the address space. -/
theorem page_fault_dispatch (accessing : Bool) (thr : Option ThreadCtx)
    (vaddr : Nat) (flags : MappingFlags) :
    (thr = none → handle_page_fault accessing thr vaddr flags = false) ∧
    (accessing = false → handle_page_fault accessing thr vaddr flags = false) ∧
    (∀ t, accessing = true → thr = some t →
      handle_page_fault accessing thr vaddr flags =
        t.resolveFault vaddr flags) := by
  refine ⟨fun h => ?_, fun h => ?_, fun t h1 h2 => ?_⟩
  · simp [handle_page_fault, h]
  · simp [handle_page_fault, h]
  · subst h1; subst h2; simp [handle_page_fault]

/-- Witness for `page_fault_dispatch` at concrete inputs: no thread,
outside an access span, and delegation to a resolver that accepts. -/
theorem page_fault_dispatch_w :
    handle_page_fault true none 0 .READ = false ∧
    handle_page_fault false (some ⟨fun _ _ => false⟩) 0 .READ = false ∧
    handle_page_fault true (some ⟨fun _ _ => true⟩) 4096 .READ_WRITE = true := by
  refine ⟨(page_fault_dispatch true none 0 .READ).1 rfl,
    (page_fault_dispatch false (some ⟨fun _ _ => false⟩) 0 .READ).2.1 rfl, ?_⟩
  have h := (page_fault_dispatch true (some ⟨fun _ _ => true⟩) 4096
    .READ_WRITE).2.2 ⟨fun _ _ => true⟩ rfl rfl
  simpa using h

/-- Claim C10: when the array layout of `len` elements of `T` does not fit in
`isize::MAX`, `get_as_slice` and `get_as_mut_slice` panic on the
`Layout::array(len).unwrap()` rather than returning an error. -/
theorem slice_layout_overflow_panics (o : Aspace) (start size align len : Nat)
    (h : isizeMax < len * size) :
    get_as_slice o start size align len = .panic ∧
    get_as_mut_slice o start size align len = .panic := by
  have hnot : ¬ len * size ≤ isizeMax - (align - 1) := by
    have := Nat.sub_le isizeMax (align - 1)
    omega
  simp [get_as_slice, get_as_mut_slice, layoutArray, hnot]

/-- Witness for `slice_layout_overflow_panics`: `2 ^ 62` elements of four
bytes overflow `isize::MAX`. -/
theorem slice_layout_overflow_panics_w :
    get_as_slice aspaceAll 0 4 4 4611686018427387904 = .panic ∧
    get_as_mut_slice aspaceAll 0 4 4 4611686018427387904 = .panic :=
  slice_layout_overflow_panics aspaceAll 0 4 4 4611686018427387904 (by decide)

/-- Claim C7: for an address misaligned with respect to the alignment of the type
(always a power of two in Rust), every validation operation fails with
`BadAddress`, for every possible address space oracle — i.e. regardless of
the permissions it would grant and before it is consulted. For the slice
operations the array layout must exist (otherwise `C10`: they panic before
reaching the alignment check). -/
theorem misaligned_always_badaddress (o : Aspace) (mem : Nat → Nat)
    (acc : Nat → Bool) (start size len fuel k : Nat)
    (hmis : start % 2 ^ k ≠ 0) :
    get_as_ref o start size (2 ^ k) = .err .BadAddress ∧
    get_as_mut o start size (2 ^ k) = .err .BadAddress ∧
    (len * size ≤ isizeMax - (2 ^ k - 1) →
      get_as_slice o start size (2 ^ k) len = .result (.err .BadAddress)) ∧
    (len * size ≤ isizeMax - (2 ^ k - 1) →
      get_as_mut_slice o start size (2 ^ k) len = .result (.err .BadAddress)) ∧
    check_null_terminated mem acc size (2 ^ k) start fuel =
      some (.err .BadAddress) ∧
    get_as_null_terminated mem acc size (2 ^ k) start fuel =
      some (.err .BadAddress) := by
  have hand : start &&& (2 ^ k - 1) ≠ 0 := by
    rw [Nat.and_pow_two_sub_one_eq_mod]
    exact hmis
  refine ⟨?_, ?_, fun hfit => ?_, fun hfit => ?_, ?_, ?_⟩ <;>
    simp [get_as_ref, get_as_mut, get_as_slice, get_as_mut_slice,
      get_as_null_terminated, check_region, check_null_terminated,
      layoutArray, hand, hmis, *]

/-- Witness for `misaligned_always_badaddress`: address 1 for a 4-byte,
4-aligned type, against the all-granting oracle. -/
theorem misaligned_always_badaddress_w :
    get_as_ref aspaceAll 1 4 (2 ^ 2) = .err .BadAddress ∧
    get_as_mut aspaceAll 1 4 (2 ^ 2) = .err .BadAddress ∧
    get_as_slice aspaceAll 1 4 (2 ^ 2) 3 = .result (.err .BadAddress) ∧
    get_as_mut_slice aspaceAll 1 4 (2 ^ 2) 3 = .result (.err .BadAddress) ∧
    check_null_terminated (fun _ => 0) (fun _ => true) 4 (2 ^ 2) 1 5 =
      some (.err .BadAddress) ∧
    get_as_null_terminated (fun _ => 0) (fun _ => true) 4 (2 ^ 2) 1 5 =
      some (.err .BadAddress) := by
  have h := misaligned_always_badaddress aspaceAll (fun _ => 0)
    (fun _ => true) 1 4 3 5 2 (by decide)
  exact ⟨h.1, h.2.1, h.2.2.1 (by decide), h.2.2.2.1 (by decide),
    h.2.2.2.2.1, h.2.2.2.2.2⟩

/-- Counterexample to `C8` as stated: validating a slice of length 0 does
not succeed for every address. At misaligned address 1 (4-byte alignment),
`get_as_slice`/`get_as_mut_slice` with `len = 0` fail with `BadAddress`
even against the oracle that grants everything. -/
theorem zero_len_slice_not_always_ok :
    get_as_slice aspaceAll 1 4 4 0 = .result (.err .BadAddress) ∧
    get_as_slice aspaceAll 1 4 4 0 ≠ .result (.ok ()) ∧
    get_as_mut_slice aspaceAll 1 4 4 0 = .result (.err .BadAddress) ∧
    get_as_mut_slice aspaceAll 1 4 4 0 ≠ .result (.ok ()) := by
  decide

/-- Claim C8 amended: a zero-length slice validation is not exempt from the
region checks; it succeeds exactly when the address is aligned, the oracle
grants the zero-length range, and populating the covering page range
succeeds (that range is `[align_down_4k start, align_up_4k start)`, which
is empty only for a page-aligned address). -/
theorem zero_len_slice_checked (o : Aspace) (start size align : Nat)
    (halign : start &&& (align - 1) = 0)
    (hr : o.can_access_range start 0 .READ = true)
    (hw : o.can_access_range start 0 .READ_WRITE = true)
    (hpr : o.populate_area (alignDown4k start)
      (alignUp4k start - alignDown4k start) .READ = .ok ())
    (hpw : o.populate_area (alignDown4k start)
      (alignUp4k start - alignDown4k start) .READ_WRITE = .ok ()) :
    get_as_slice o start size align 0 = .result (.ok ()) ∧
    get_as_mut_slice o start size align 0 = .result (.ok ()) := by
  constructor <;>
    simp [get_as_slice, get_as_mut_slice, layoutArray, check_region,
      halign, hr, hw, hpr, hpw]

/-- Witness for `zero_len_slice_checked`: aligned address 8, all-granting
oracle. -/
theorem zero_len_slice_checked_w :
    get_as_slice aspaceAll 8 4 4 0 = .result (.ok ()) ∧
    get_as_mut_slice aspaceAll 8 4 4 0 = .result (.ok ()) :=
  zero_len_slice_checked aspaceAll 8 4 4 (by decide) rfl rfl rfl rfl

/-- Counterexample to `C3` as stated: a `FUTEX_CMP_REQUEUE` call whose
current value (0) differs from `value3` (1) does not always fail with
`WouldBlock` — with a wake count that is negative as an `i32`
(`2147483648`), it fails with `InvalidInput` instead, because
`assert_unsigned(value)` runs before the comparison. -/
theorem cmp_requeue_mismatch_not_always_wouldblock :
    (sysFutexRequeue emptyTable 0 1 true 2147483648 (.ok 0) 1 0
        (fun f _ _ => (0, f)) (fun f _ t => (0, f, t))).1 =
      .err .InvalidInput ∧
    (sysFutexRequeue emptyTable 0 1 true 2147483648 (.ok 0) 1 0
        (fun f _ _ => (0, f)) (fun f _ t => (0, f, t))).1 ≠
      .err .WouldBlock := by
  decide

/-- Claim C3 amended: a `FUTEX_CMP_REQUEUE` call whose current value differs
from `value3`, and whose wake count is non-negative as a signed 32-bit
integer, fails with `WouldBlock` with the futex table (hence both queues)
unchanged: no waiter is woken and none is moved, for every possible
wait-queue wake/requeue behaviour. (A negative wake count instead fails
earlier with `InvalidInput`, likewise before any wake or move.) -/
theorem cmp_requeue_mismatch_wouldblock (tbl : FutexTable) (key key2 : Nat)
    (value cur value3 timeoutAddr : Nat)
    (wake : Futex → Nat → Nat → Nat × Futex)
    (requeue : Futex → Nat → Futex → Nat × Futex × Futex)
    (hv : value < 2 ^ 31) (hne : cur ≠ value3) :
    sysFutexRequeue tbl key key2 true value (.ok cur) value3 timeoutAddr
      wake requeue = (.err .WouldBlock, tbl) := by
  have hv2 : ¬ 2147483648 ≤ value := by
    have e : (2 : Nat) ^ 31 = 2147483648 := by norm_num
    omega
  simp [sysFutexRequeue, assert_unsigned, hv2, hne]

/-- Witness for `cmp_requeue_mismatch_wouldblock` at a concrete input. -/
theorem cmp_requeue_mismatch_wouldblock_w :
    sysFutexRequeue emptyTable 0 1 true 1 (.ok 0) 7 0
      (fun f _ _ => (0, f)) (fun f _ t => (0, f, t)) =
      (.err .WouldBlock, emptyTable) :=
  cmp_requeue_mismatch_wouldblock emptyTable 0 1 1 0 7 0
    (fun f _ _ => (0, f)) (fun f _ t => (0, f, t)) (by decide) (by decide)

/-- Counterexample to `C9` as stated: `FUTEX_WAKE` with a count that is
negative as an `i32` (`2147483648`) does not fail with `InvalidInput`: the
wake branch performs no sign validation and the call returns `ok 0` (here
on an empty table). -/
theorem wake_negative_count_not_invalid :
    (sysFutexWake emptyTable 0 2147483648 false 0 (fun f _ _ => (0, f))).1 =
      .ok 0 ∧
    (sysFutexWake emptyTable 0 2147483648 false 0 (fun f _ _ => (0, f))).1 ≠
      .err .InvalidInput := by
  decide

/-- Claim C9 amended: only the `FUTEX_REQUEUE`/`FUTEX_CMP_REQUEUE` branch
validates its counts: a wake count that is negative as an `i32` fails with
`InvalidInput` immediately, and a requeue count (`timeout.addr() as u32`)
that is negative as an `i32` fails with `InvalidInput` once the earlier
checks pass — in both cases before any waiter is woken or moved (the table
is unchanged, for every wake/requeue behaviour). The `FUTEX_WAKE` branch
performs no such validation (see the counterexample). -/
theorem requeue_negative_counts_invalid (tbl : FutexTable) (key key2 : Nat)
    (isCmp : Bool) (value : Nat) (readRes : AxResult Nat)
    (value3 timeoutAddr : Nat) (wake : Futex → Nat → Nat → Nat × Futex)
    (requeue : Futex → Nat → Futex → Nat × Futex × Futex) :
    (2 ^ 31 ≤ value →
      sysFutexRequeue tbl key key2 isCmp value readRes value3 timeoutAddr
        wake requeue = (.err .InvalidInput, tbl)) ∧
    (value < 2 ^ 31 → 2 ^ 31 ≤ timeoutAddr % 2 ^ 32 →
      (isCmp = false ∨ readRes = .ok value3) →
      sysFutexRequeue tbl key key2 isCmp value readRes value3 timeoutAddr
        wake requeue = (.err .InvalidInput, tbl)) := by
  have e : (2 : Nat) ^ 31 = 2147483648 := by norm_num
  constructor
  · intro hv
    have hv2 : 2147483648 ≤ value := by omega
    simp [sysFutexRequeue, assert_unsigned, hv2]
  · intro hv ht hcmp
    have hv2 : ¬ 2147483648 ≤ value := by omega
    have ht2 : 2147483648 ≤ timeoutAddr % 4294967296 := by
      have e2 : (2 : Nat) ^ 32 = 4294967296 := by norm_num
      omega
    rcases hcmp with h | h
    · subst h
      simp [sysFutexRequeue, assert_unsigned, hv2, ht2]
    · subst h
      simp [sysFutexRequeue, assert_unsigned, hv2, ht2]

/-- Witness for `requeue_negative_counts_invalid`: both conjuncts at
concrete inputs (negative wake count; negative requeue count). -/
theorem requeue_negative_counts_invalid_w :
    sysFutexRequeue emptyTable 0 1 false 2147483648 (.ok 0) 0 0
      (fun f _ _ => (0, f)) (fun f _ t => (0, f, t)) =
      (.err .InvalidInput, emptyTable) ∧
    sysFutexRequeue emptyTable 0 1 false 5 (.ok 0) 0 2147483648
      (fun f _ _ => (0, f)) (fun f _ t => (0, f, t)) =
      (.err .InvalidInput, emptyTable) :=
  ⟨(requeue_negative_counts_invalid emptyTable 0 1 false 2147483648 (.ok 0)
      0 0 (fun f _ _ => (0, f)) (fun f _ t => (0, f, t))).1 (by decide),
   (requeue_negative_counts_invalid emptyTable 0 1 false 5 (.ok 0)
      0 2147483648 (fun f _ _ => (0, f)) (fun f _ t => (0, f, t))).2
      (by decide) (by decide) (Or.inl rfl)⟩

/-- Page-loop helper: when the `count` pages starting at `page` are all
accessible, the validation loop succeeds and leaves the cursor `count`
pages further. -/
theorem pageLoopGo_ok (acc : Nat → Bool) (count : Nat) :
    ∀ page, (∀ j, j < count → acc (page + PAGE_SIZE_4K * j) = true) →
    pageLoopGo acc page count = .ok (page + PAGE_SIZE_4K * count) := by
  induction count with
  | zero =>
    intro page h
    simp [pageLoopGo]
  | succ n ih =>
    intro page h
    have h0 : acc page = true := by simpa using h 0 (Nat.succ_pos n)
    have ih2 := ih (page + PAGE_SIZE_4K) (fun j hj => by
      have hh := h (j + 1) (by omega)
      have e : page + PAGE_SIZE_4K * (j + 1) =
          page + PAGE_SIZE_4K + PAGE_SIZE_4K * j := by ring
      rwa [e] at hh)
    have e2 : page + PAGE_SIZE_4K + PAGE_SIZE_4K * n =
        page + PAGE_SIZE_4K * (n + 1) := by ring
    simp [pageLoopGo, h0, ih2, e2]

/-- Page-loop helper: when the pages before index `j0` are accessible but
the page at index `j0` (within the range of the loop) is denied, the loop fails
with `BadAddress`. -/
theorem pageLoopGo_err (acc : Nat → Bool) (j0 : Nat) :
    ∀ count page, j0 < count →
    (∀ j, j < j0 → acc (page + PAGE_SIZE_4K * j) = true) →
    acc (page + PAGE_SIZE_4K * j0) = false →
    pageLoopGo acc page count = .err .BadAddress := by
  induction j0 with
  | zero =>
    intro count page hlt hgood hbad
    obtain ⟨c, rfl⟩ : ∃ c, count = c + 1 := ⟨count - 1, by omega⟩
    have hb : acc page = false := by simpa using hbad
    simp [pageLoopGo, hb]
  | succ m ih =>
    intro count page hlt hgood hbad
    obtain ⟨c, rfl⟩ : ∃ c, count = c + 1 := ⟨count - 1, by omega⟩
    have h0 : acc page = true := by simpa using hgood 0 (Nat.succ_pos m)
    have ih2 := ih c (page + PAGE_SIZE_4K) (by omega)
      (fun j hj => by
        have hh := hgood (j + 1) (by omega)
        have e : page + PAGE_SIZE_4K * (j + 1) =
            page + PAGE_SIZE_4K + PAGE_SIZE_4K * j := by ring
        rwa [e] at hh)
      (by
        have e : page + PAGE_SIZE_4K * (m + 1) =
            page + PAGE_SIZE_4K + PAGE_SIZE_4K * m := by ring
        rwa [e] at hbad)
    simp [pageLoopGo, h0, ih2]

/-- The inner while loop succeeds when every page-aligned address in
`[page, ptr]` is accessible, leaving the cursor at the first page boundary
beyond `ptr` (or where it was, when it is already beyond). -/
theorem pageLoop_ok (acc : Nat → Bool) (ptr page : Nat)
    (hal : page % PAGE_SIZE_4K = 0)
    (hacc : ∀ q, q % PAGE_SIZE_4K = 0 → page ≤ q → q ≤ ptr → acc q = true) :
    pageLoop acc ptr page = .ok (if page ≤ ptr then nextPage ptr else page) := by
  by_cases hc : page ≤ ptr
  · have hgo := pageLoopGo_ok acc (ptr / PAGE_SIZE_4K + 1 - page / PAGE_SIZE_4K)
      page (fun j hj => hacc (page + PAGE_SIZE_4K * j)
        (by simp only [PAGE_SIZE_4K] at *; omega)
        (by omega)
        (by simp only [PAGE_SIZE_4K] at *; omega))
    rw [if_pos hc]
    unfold pageLoop
    rw [hgo]
    congr 1
    simp only [PAGE_SIZE_4K, nextPage] at *
    omega
  · have hz : ptr / PAGE_SIZE_4K + 1 - page / PAGE_SIZE_4K = 0 := by
      simp only [PAGE_SIZE_4K] at *
      omega
    unfold pageLoop
    rw [hz, if_neg hc]
    simp [pageLoopGo]

/-- The inner while loop fails with `BadAddress` when a page-aligned
address `P0` within its range (`page ≤ P0 ≤ ptr`) is denied and every
aligned address before it is accessible. -/
theorem pageLoop_err (acc : Nat → Bool) (ptr page P0 : Nat)
    (hal : page % PAGE_SIZE_4K = 0) (hPal : P0 % PAGE_SIZE_4K = 0)
    (h1 : page ≤ P0) (h2 : P0 ≤ ptr) (hbad : acc P0 = false)
    (hgood : ∀ q, q % PAGE_SIZE_4K = 0 → page ≤ q → q < P0 → acc q = true) :
    pageLoop acc ptr page = .err .BadAddress := by
  have hj0 : page + PAGE_SIZE_4K * ((P0 - page) / PAGE_SIZE_4K) = P0 := by
    simp only [PAGE_SIZE_4K] at *
    omega
  unfold pageLoop
  apply pageLoopGo_err acc ((P0 - page) / PAGE_SIZE_4K)
  · simp only [PAGE_SIZE_4K] at *
    omega
  · intro j hj
    apply hgood
    · simp only [PAGE_SIZE_4K] at *; omega
    · omega
    · simp only [PAGE_SIZE_4K] at *; omega
  · rw [hj0]
    exact hbad

/-- One unfolding step of the outer scan loop. -/
theorem scanLoop_succ (mem : Nat → Nat) (acc : Nat → Bool)
    (size start fuel page len : Nat) :
    scanLoop mem acc size start (fuel + 1) page len =
      match pageLoop acc (start + len * size) page with
      | .err e => some (.err e)
      | .ok page1 =>
        if mem (start + len * size) = 0 then some (.ok len)
        else scanLoop mem acc size start fuel page1 (len + 1) := rfl

/-- Every address is below the next page boundary. -/
theorem le_nextPage (a : Nat) : a ≤ nextPage a := by
  simp only [nextPage, PAGE_SIZE_4K]
  omega

/-- The next page boundary is page-aligned. -/
theorem nextPage_aligned (a : Nat) : nextPage a % PAGE_SIZE_4K = 0 := by
  simp only [nextPage, PAGE_SIZE_4K]
  omega

/-- Monotonicity of `nextPage`. -/
theorem nextPage_mono {a b : Nat} (h : a ≤ b) : nextPage a ≤ nextPage b := by
  simp only [nextPage, PAGE_SIZE_4K]
  have := Nat.div_le_div_right (c := 4096) h
  omega

/-- The next page boundary after an address below an aligned address `P0`
is at most `P0`. -/
theorem nextPage_le_of_lt {a P0 : Nat} (hal : P0 % PAGE_SIZE_4K = 0)
    (h : a < P0) : nextPage a ≤ P0 := by
  simp only [nextPage, PAGE_SIZE_4K] at *
  omega

/-- Outer-loop invariant lemma for the successful scan: with `d` elements
left before the terminator at index `n`, a page cursor that is aligned, at
least `align_down_4k start`, and not beyond the boundary after the current
element, the scan returns `n` within `d + 1` further iterations. -/
theorem scanLoop_finds (mem : Nat → Nat) (acc : Nat → Bool) (size start n : Nat)
    (hz : mem (start + n * size) = 0)
    (hnz : ∀ i, i < n → mem (start + i * size) ≠ 0)
    (hacc : ∀ p, p % PAGE_SIZE_4K = 0 → alignDown4k start ≤ p →
      p ≤ start + n * size → acc p = true) :
    ∀ d len page, len + d = n → page % PAGE_SIZE_4K = 0 →
      alignDown4k start ≤ page → page ≤ nextPage (start + len * size) →
      scanLoop mem acc size start (d + 1) page len = some (.ok n) := by
  intro d
  induction d with
  | zero =>
    intro len page hlen hal hdown hup
    have hl : len = n := by omega
    subst hl
    have hpl := pageLoop_ok acc (start + len * size) page hal
      (fun q h1 h2 h3 => hacc q h1 (le_trans hdown h2) h3)
    rw [scanLoop_succ, hpl]
    simp [hz]
  | succ m ih =>
    intro len page hlen hal hdown hup
    have hls : len * size ≤ n * size := Nat.mul_le_mul_right size (by omega)
    have hpl := pageLoop_ok acc (start + len * size) page hal
      (fun q h1 h2 h3 => hacc q h1 (le_trans hdown h2) (by omega))
    have hm : mem (start + len * size) ≠ 0 := hnz len (by omega)
    have hmul : start + (len + 1) * size = start + len * size + size := by ring
    have ih2 := ih (len + 1)
      (if page ≤ start + len * size then nextPage (start + len * size) else page)
      (by omega)
      (by
        by_cases hc : page ≤ start + len * size
        · rw [if_pos hc]
          exact nextPage_aligned _
        · simpa [if_neg hc] using hal)
      (by
        by_cases hc : page ≤ start + len * size
        · rw [if_pos hc]
          exact le_trans hdown (le_trans hc (le_nextPage _))
        · simpa [if_neg hc] using hdown)
      (by
        rw [hmul]
        by_cases hc : page ≤ start + len * size
        · rw [if_pos hc]
          exact nextPage_mono (Nat.le_add_right _ _)
        · rw [if_neg hc]
          exact le_trans hup (nextPage_mono (Nat.le_add_right _ _)))
    rw [scanLoop_succ, hpl]
    simp only [if_neg hm]
    exact ih2

/-- Outer-loop invariant lemma for the failing scan: with the denied page
`P0` at most `b` elements ahead of the cursor, an aligned page cursor at
most `P0`, and no zero element before `P0`, the scan terminates with
`BadAddress` for some fuel. -/
theorem scanLoop_hits_unmapped (mem : Nat → Nat) (acc : Nat → Bool)
    (size start P0 : Nat)
    (hPal : P0 % PAGE_SIZE_4K = 0) (hbad : acc P0 = false)
    (hgood : ∀ q, q % PAGE_SIZE_4K = 0 → alignDown4k start ≤ q → q < P0 →
      acc q = true)
    (hnz : ∀ i, start + i * size < P0 → mem (start + i * size) ≠ 0) :
    ∀ b len page, P0 ≤ start + (len + b) * size →
      page % PAGE_SIZE_4K = 0 → alignDown4k start ≤ page → page ≤ P0 →
      page ≤ nextPage (start + len * size) →
      ∃ fuel, scanLoop mem acc size start fuel page len =
        some (.err .BadAddress) := by
  intro b
  induction b with
  | zero =>
    intro len page hb hal hdn hle hup
    refine ⟨0 + 1, ?_⟩
    have hb2 : P0 ≤ start + len * size := by
      have e : len + 0 = len := by omega
      rwa [e] at hb
    have hpl := pageLoop_err acc (start + len * size) page P0 hal hPal hle hb2
      hbad (fun q h1 h2 h3 => hgood q h1 (le_trans hdn h2) h3)
    rw [scanLoop_succ, hpl]
  | succ m ih =>
    intro len page hb hal hdn hle hup
    by_cases hP : P0 ≤ start + len * size
    · refine ⟨0 + 1, ?_⟩
      have hpl := pageLoop_err acc (start + len * size) page P0 hal hPal hle hP
        hbad (fun q h1 h2 h3 => hgood q h1 (le_trans hdn h2) h3)
      rw [scanLoop_succ, hpl]
    · push_neg at hP
      have hpl := pageLoop_ok acc (start + len * size) page hal
        (fun q h1 h2 h3 => hgood q h1 (le_trans hdn h2) (by omega))
      have hm : mem (start + len * size) ≠ 0 := hnz len hP
      have hmul : start + (len + 1) * size = start + len * size + size := by ring
      obtain ⟨fuel, hf⟩ := ih (len + 1)
        (if page ≤ start + len * size then nextPage (start + len * size) else page)
        (by
          have e : len + 1 + m = len + (m + 1) := by omega
          rwa [e])
        (by
          by_cases hc : page ≤ start + len * size
          · rw [if_pos hc]
            exact nextPage_aligned _
          · simpa [if_neg hc] using hal)
        (by
          by_cases hc : page ≤ start + len * size
          · rw [if_pos hc]
            exact le_trans hdn (le_trans hc (le_nextPage _))
          · simpa [if_neg hc] using hdn)
        (by
          by_cases hc : page ≤ start + len * size
          · rw [if_pos hc]
            exact nextPage_le_of_lt hPal hP
          · simpa [if_neg hc] using hle)
        (by
          rw [hmul]
          by_cases hc : page ≤ start + len * size
          · rw [if_pos hc]
            exact nextPage_mono (Nat.le_add_right _ _)
          · rw [if_neg hc]
            exact le_trans hup (nextPage_mono (Nat.le_add_right _ _)))
      refine ⟨fuel + 1, ?_⟩
      rw [scanLoop_succ, hpl]
      simp only [if_neg hm]
      exact hf

/-- Claim C4: on an aligned buffer whose elements at indices `0..n-1` are
non-zero, whose element at index `n` is zero, and whose pages up to and
including the one holding index `n` are all accessible, the
null-terminated scan succeeds with length exactly `n` (the terminator is
excluded), and the null-terminated getters return a slice of length `n`.
`n + 1` loop iterations suffice. -/
theorem nullscan_returns_first_zero_index (mem : Nat → Nat) (acc : Nat → Bool)
    (size align start n : Nat)
    (halign : start &&& (align - 1) = 0)
    (hnz : ∀ i, i < n → mem (start + i * size) ≠ 0)
    (hz : mem (start + n * size) = 0)
    (hacc : ∀ p, p % PAGE_SIZE_4K = 0 → alignDown4k start ≤ p →
      p ≤ start + n * size → acc p = true) :
    check_null_terminated mem acc size align start (n + 1) = some (.ok n) ∧
    get_as_null_terminated mem acc size align start (n + 1) =
      some (.ok ((List.range n).map fun i => mem (start + i * size))) ∧
    ((List.range n).map fun i => mem (start + i * size)).length = n := by
  have hscan := scanLoop_finds mem acc size start n hz hnz hacc n 0
    (alignDown4k start) (by omega)
    (by simp only [alignDown4k, PAGE_SIZE_4K]; omega)
    (le_refl _)
    (by
      simp only [Nat.zero_mul, Nat.add_zero]
      exact le_trans (by simp only [alignDown4k, PAGE_SIZE_4K]; omega)
        (le_nextPage start))
  have hc : check_null_terminated mem acc size align start (n + 1) =
      some (.ok n) := by
    simp [check_null_terminated, halign, hscan]
  refine ⟨hc, ?_, by simp⟩
  simp [get_as_null_terminated, hc]

/-- Witness for `nullscan_returns_first_zero_index`: bytes `A A A 0`
starting at address 0 give length 3. -/
theorem nullscan_returns_first_zero_index_w :
    check_null_terminated (fun a => if a < 3 then 65 else 0) (fun _ => true)
      1 1 0 (3 + 1) = some (.ok 3) ∧
    get_as_null_terminated (fun a => if a < 3 then 65 else 0) (fun _ => true)
      1 1 0 (3 + 1) =
      some (.ok ((List.range 3).map fun i =>
        (fun a => if a < 3 then 65 else 0) (0 + i * 1))) ∧
    ((List.range 3).map fun i =>
      (fun a => if a < 3 then 65 else 0) (0 + i * 1)).length = 3 :=
  nullscan_returns_first_zero_index (fun a => if a < 3 then 65 else 0)
    (fun _ => true) 1 1 0 3 (by decide)
    (by decide) (by decide) (fun p _ _ _ => rfl)

/-- Claim C5: when no zero element occurs before the first inaccessible page
`P0` (page-aligned, at or after the page of `start`, every aligned page
before it accessible), the scan terminates: some finite number of loop
iterations returns `BadAddress`. Because the theorem constrains `mem` only
below `P0`, it also shows that no element on or beyond the denied page is
ever read: every page is re-validated before the elements in it are. -/
theorem nullscan_unmapped_page_fails (mem : Nat → Nat) (acc : Nat → Bool)
    (size align start P0 : Nat) (hsize : 0 < size)
    (halign : start &&& (align - 1) = 0)
    (hPal : P0 % PAGE_SIZE_4K = 0) (hPge : alignDown4k start ≤ P0)
    (hbad : acc P0 = false)
    (hgood : ∀ q, q % PAGE_SIZE_4K = 0 → alignDown4k start ≤ q → q < P0 →
      acc q = true)
    (hnz : ∀ i, start + i * size < P0 → mem (start + i * size) ≠ 0) :
    ∃ fuel, check_null_terminated mem acc size align start fuel =
      some (.err .BadAddress) := by
  obtain ⟨fuel, hf⟩ := scanLoop_hits_unmapped mem acc size start P0 hPal hbad
    hgood hnz P0 0 (alignDown4k start)
    (by
      simp only [Nat.zero_add]
      calc P0 = P0 * 1 := (Nat.mul_one P0).symm
        _ ≤ P0 * size := Nat.mul_le_mul_left P0 hsize
        _ ≤ start + P0 * size := Nat.le_add_left _ _)
    (by simp only [alignDown4k, PAGE_SIZE_4K]; omega)
    (le_refl _) hPge
    (by
      simp only [Nat.zero_mul, Nat.add_zero]
      exact le_trans (by simp only [alignDown4k, PAGE_SIZE_4K]; omega)
        (le_nextPage start))
  exact ⟨fuel, by simp [check_null_terminated, halign, hf]⟩

/-- Witness for `nullscan_unmapped_page_fails`: a byte buffer at address 0
with no terminator in the single accessible page; the scan fails with
`BadAddress` at page 4096. -/
theorem nullscan_unmapped_page_fails_w :
    ∃ fuel, check_null_terminated (fun _ => 1)
      (fun p => decide (p < 4096)) 1 1 0 fuel = some (.err .BadAddress) :=
  nullscan_unmapped_page_fails (fun _ => 1) (fun p => decide (p < 4096))
    1 1 0 4096 (by decide) (by decide) (by decide) (by decide) (by decide)
    (fun q h1 h2 h3 => by
      simp only [PAGE_SIZE_4K] at h1
      have hq : q = 0 := by omega
      subst hq
      rfl)
    (fun i h => Nat.one_ne_zero)

end StarryOS
